import Mathlib

/-!
Verification of the match-value encoding core of `go-openvswitch` (package
`ovs`, file `match.go`): the range-to-masked-value decomposition feeding
`MaskedPorts`, and the `MarshalText` encoders of the match variants.

Go values are embedded as follows: unsigned machine integers become `Nat`
(with explicit `< 2^w` bounds where a claim needs them), Go `int` becomes
`Int`, `[]byte` results of the marshallers become `String`, and fallible
operations return `Except OvsError String`.  The error model distinguishes
the error kinds the specification names (RangeError, FormatError, and
pass-through parse errors) while recording the exact Go error message.
-/

/-- Error kinds of the encoding core.  `formatError` carries the message of a
`fmt.Errorf` call in `match.go`; `rangeError` is a numeric-domain violation;
`parseError` is a pass-through error from lower-level address parsing. -/
inductive OvsError where
  | rangeError (msg : String)
  | formatError (msg : String)
  | parseError (msg : String)
deriving DecidableEq, Repr

/-! ## Numeric text rendering (Go `fmt` verbs used by `match.go`) -/

/-- Lower-case hex digit, as Go's `fmt` package renders `%x`. -/
def hexDigitChar (n : Nat) : Char :=
  if n < 10 then Char.ofNat (48 + n) else Char.ofNat (87 + n)

/-- Hex digits of `n`, least significant first; `fuel` bounds the digit
count (16 nibbles cover every value below `2^64`). -/
def hexRevAux : Nat → Nat → List Char
  | 0, _ => []
  | fuel + 1, n =>
    if n < 16 then [hexDigitChar n]
    else hexDigitChar (n % 16) :: hexRevAux fuel (n / 16)

/-- Go `%x`: minimal-width lower-case hexadecimal (`0` renders as `"0"`). -/
def hexStr (n : Nat) : String := String.mk (hexRevAux 16 n).reverse

/-- Zero-pad a string on the left to width `w`, as Go's `%0wx` does. -/
def pad0 (w : Nat) (s : String) : String :=
  String.mk (List.replicate (w - s.length) '0') ++ s

/-- Go `%04x`. -/
def hex04 (n : Nat) : String := pad0 4 (hexStr n)

/-- Go `%08x`. -/
def hex08 (n : Nat) : String := pad0 8 (hexStr n)

/-! ## Range decomposition (`PortRange.BitwiseMatch`)

The file `match.go` calls `portRange.BitwiseMatch()`, whose definition is not
part of the sources under verification; the specification states its
algorithm (greedy maximal aligned blocks) and its interface, so it is
modelled from the spec below. -/

/-- A block `{value, maskBits}`: `maskBits` low-order don't-care bits, so the
block denotes the integers `value … value + 2^maskBits − 1`. -/
structure Block where
  value : Nat
  maskBits : Nat
deriving DecidableEq, Repr

/-- Largest `k ≤ w` such that `start` is `2^k`-aligned and the block of size
`2^k` at `start` still fits below `e`; `0` when no larger `k` qualifies. -/
def findK : Nat → Nat → Nat → Nat
  | 0, _, _ => 0
  | k + 1, s, e =>
    if s % 2 ^ (k + 1) = 0 ∧ s + 2 ^ (k + 1) - 1 ≤ e then k + 1
    else findK k s e

/-- One greedy step per unit of fuel: emit the maximal aligned block at `s`
and continue past it.  `decompose` supplies sufficient fuel. -/
def decomposeAux : Nat → Nat → Nat → List Block
  | 0, _, _ => []
  | fuel + 1, s, e =>
    if s ≤ e then
      let k := findK 16 s e
      ⟨s, k⟩ :: decomposeAux fuel (s + 2 ^ k) e
    else []

/-- Modelled from the spec: the range decomposition (§4.1) used by
`PortRange.BitwiseMatch`, whose implementation is not among the sources.
While `start ≤ end`, emit the largest aligned block fitting the remaining
range and advance past it (W = 16 for transport ports). -/
def decompose (s e : Nat) : List Block :=
  decomposeAux (e + 1 - s) s e

/-- A bitwise match entry as consumed by `MaskedPorts`: a value and the
don't-care mask `2^maskBits − 1` of its block. -/
structure BitRange where
  Value : Nat
  Mask : Nat
deriving DecidableEq, Repr

/-- The port range handed to `BitwiseMatch` by `MaskedPorts`. -/
structure PortRange where
  Start : Nat
  End : Nat
deriving DecidableEq, Repr

/-- Modelled from the spec: `PortRange.BitwiseMatch` is not among the
sources; per §4.1/§4.2 it rejects `start > end` with a RangeError and no
blocks, and otherwise yields the decomposition's blocks in order, each with
mask `2^maskBits − 1`. -/
def PortRange.BitwiseMatch (pr : PortRange) : Except OvsError (List BitRange) :=
  if pr.Start > pr.End then
    .error (.rangeError "invalid port range: start is greater than end")
  else
    .ok ((decompose pr.Start pr.End).map fun b => ⟨b.value, 2 ^ b.maskBits - 1⟩)

/-! ## Transport port matches (`transportPortMatch`, `transportPortRange`) -/

/-- A `transportPortMatch` (Go struct of the same name). -/
structure transportPortMatch where
  srcdst : String
  port : Nat
  mask : Nat
deriving DecidableEq, Repr

/-- A `transportPortRange` (Go struct of the same name). -/
structure transportPortRange where
  srcdst : String
  startPort : Nat
  endPort : Nat
deriving DecidableEq, Repr

/-- `matchTransportPort` (match.go lines 995–1002): exact decimal form for
the `mask = 0` sentinel, `0x%04x/0x%04x` otherwise. -/
def matchTransportPort (srcdst : String) (port mask : Nat) : Except OvsError String :=
  if mask = 0 then
    .ok ("tp_" ++ srcdst ++ "=" ++ toString port)
  else
    .ok ("tp_" ++ srcdst ++ "=0x" ++ hex04 port ++ "/0x" ++ hex04 mask)

/-- `transportPortRange.MaskedPorts` (match.go lines 640–663): decompose the
range via `BitwiseMatch`, propagate its error unchanged, and otherwise wrap
each bit range as a masked `transportPortMatch`, preserving order. -/
def transportPortRange.MaskedPorts (pr : transportPortRange) :
    Except OvsError (List transportPortMatch) :=
  match PortRange.BitwiseMatch ⟨pr.startPort, pr.endPort⟩ with
  | .error e => .error e
  | .ok bitRanges =>
      .ok (bitRanges.map fun br => ⟨pr.srcdst, br.Value, br.Mask⟩)

instance {ε α : Type} [DecidableEq ε] [DecidableEq α] : DecidableEq (Except ε α) := fun x y =>
  match x, y with
  | .error a, .error b =>
      if h : a = b then .isTrue (by rw [h]) else .isFalse (by intro hc; cases hc; exact h rfl)
  | .ok a, .ok b =>
      if h : a = b then .isTrue (by rw [h]) else .isFalse (by intro hc; cases hc; exact h rfl)
  | .error _, .ok _ => .isFalse (by intro hc; cases hc)
  | .ok _, .error _ => .isFalse (by intro hc; cases hc)

/-! ## Simple numeric / flag-set match variants -/

/-- A `dataLinkTypeMatch` (EtherType); Go field `etherType uint16`. -/
structure dataLinkTypeMatch where
  etherType : Nat
deriving DecidableEq, Repr

/-- `dataLinkTypeMatch.MarshalText` (match.go lines 162–164). -/
def dataLinkTypeMatch.MarshalText (m : dataLinkTypeMatch) : Except OvsError String :=
  .ok ("dl_type=0x" ++ hex04 m.etherType)

/-- `VLANNone`: the reserved "no VLAN tag present" sentinel. -/
def VLANNone : Int := 0xffff

/-- Modelled from the spec: `validVLANVID` is not among the sources; per
§4.2 the VLAN id "must lie in the field's valid domain", the 12-bit id
domain `0 … 4095`. -/
def validVLANVID (vid : Int) : Bool := 0 ≤ vid ∧ vid ≤ 4095

/-- Modelled from the spec: `errInvalidVLANVID` is not among the sources;
per §4.2/§7 an out-of-domain VLAN id is a RangeError. -/
def errInvalidVLANVID : OvsError := .rangeError "VLAN VID must be between 0 and 4095"

/-- A `dataLinkVLANMatch`; Go field `vid int`. -/
structure dataLinkVLANMatch where
  vid : Int
deriving DecidableEq, Repr

/-- `dataLinkVLANMatch.MarshalText` (match.go lines 190–200). -/
def dataLinkVLANMatch.MarshalText (m : dataLinkVLANMatch) : Except OvsError String :=
  if ¬ validVLANVID m.vid ∧ m.vid ≠ VLANNone then
    .error errInvalidVLANVID
  else if m.vid = VLANNone then
    .ok "dl_vlan=0xffff"
  else
    .ok ("dl_vlan=" ++ toString m.vid)

/-- A `regMatch`; Go fields `n int`, `val uint32`, `mask uint32`. -/
structure regMatch where
  n : Int
  val : Nat
  mask : Nat
deriving DecidableEq, Repr

/-- `regMatch.MarshalText` (match.go lines 267–278): empty text for
`mask = 0`, no-suffix form for the all-ones mask (`^uint32(0)`), and
unpadded `0x%x/0x%x` otherwise. -/
def regMatch.MarshalText (m : regMatch) : Except OvsError String :=
  if m.mask = 0 then
    .ok ""
  else if m.mask = 2 ^ 32 - 1 then
    if m.val = 0 then .ok ("reg" ++ toString m.n ++ "=0")
    else .ok ("reg" ++ toString m.n ++ "=0x" ++ hexStr m.val)
  else
    .ok ("reg" ++ toString m.n ++ "=0x" ++ hexStr m.val ++ "/0x" ++ hexStr m.mask)

/-- A `conjunctionIDMatch`; Go field `id uint32`. -/
structure conjunctionIDMatch where
  id : Nat
deriving DecidableEq, Repr

/-- `conjunctionIDMatch.MarshalText` (match.go lines 299–301). -/
def conjunctionIDMatch.MarshalText (m : conjunctionIDMatch) : Except OvsError String :=
  .ok ("conj_id=" ++ toString m.id)

/-- A `networkProtocolMatch`; Go field `num uint8`. -/
structure networkProtocolMatch where
  num : Nat
deriving DecidableEq, Repr

/-- `networkProtocolMatch.MarshalText` (match.go lines 326–328). -/
def networkProtocolMatch.MarshalText (m : networkProtocolMatch) : Except OvsError String :=
  .ok ("nw_proto=" ++ toString m.num)

/-- An `icmpTypeMatch`; Go field `typ uint8`. -/
structure icmpTypeMatch where
  typ : Nat
deriving DecidableEq, Repr

/-- `icmpTypeMatch.MarshalText` (match.go lines 390–392). -/
def icmpTypeMatch.MarshalText (m : icmpTypeMatch) : Except OvsError String :=
  .ok ("icmp_type=" ++ toString m.typ)

/-- A `vlanTCIMatch`; Go fields `tci uint16`, `mask uint16`. -/
structure vlanTCIMatch where
  tci : Nat
  mask : Nat
deriving DecidableEq, Repr

/-- `vlanTCIMatch.MarshalText` (match.go lines 703–709). -/
def vlanTCIMatch.MarshalText (m : vlanTCIMatch) : Except OvsError String :=
  if m.mask ≠ 0 then
    .ok ("vlan_tci=0x" ++ hex04 m.tci ++ "/0x" ++ hex04 m.mask)
  else
    .ok ("vlan_tci=0x" ++ hex04 m.tci)

/-- A `connectionTrackingMarkMatch`; Go fields `mark uint32`, `mask uint32`. -/
structure connectionTrackingMarkMatch where
  mark : Nat
  mask : Nat
deriving DecidableEq, Repr

/-- `connectionTrackingMarkMatch.MarshalText` (match.go lines 731–737). -/
def connectionTrackingMarkMatch.MarshalText (m : connectionTrackingMarkMatch) :
    Except OvsError String :=
  if m.mask ≠ 0 then
    .ok ("ct_mark=0x" ++ hex08 m.mark ++ "/0x" ++ hex08 m.mask)
  else
    .ok ("ct_mark=0x" ++ hex08 m.mark)

/-- A `connectionTrackingZoneMatch`; Go field `zone uint16`. -/
structure connectionTrackingZoneMatch where
  zone : Nat
deriving DecidableEq, Repr

/-- `connectionTrackingZoneMatch.MarshalText` (match.go lines 757–759). -/
def connectionTrackingZoneMatch.MarshalText (m : connectionTrackingZoneMatch) :
    Except OvsError String :=
  .ok ("ct_zone=" ++ toString m.zone)

/-- A `connectionTrackingMatch`; Go field `state []string`. -/
structure connectionTrackingMatch where
  state : List String
deriving DecidableEq, Repr

/-- `connectionTrackingMatch.MarshalText` (match.go lines 783–785):
`strings.Join(m.state, "")` concatenates the caller-supplied flag tokens. -/
def connectionTrackingMatch.MarshalText (m : connectionTrackingMatch) :
    Except OvsError String :=
  .ok ("ct_state=" ++ String.join m.state)

/-- A `tcpFlagsMatch`; Go field `flags []string`. -/
structure tcpFlagsMatch where
  flags : List String
deriving DecidableEq, Repr

/-- `tcpFlagsMatch.MarshalText` (match.go lines 845–847). -/
def tcpFlagsMatch.MarshalText (m : tcpFlagsMatch) : Except OvsError String :=
  .ok ("tcp_flags=" ++ String.join m.flags)

/-- A `tunnelIDMatch`; Go fields `id uint64`, `mask uint64`. -/
structure tunnelIDMatch where
  id : Nat
  mask : Nat
deriving DecidableEq, Repr

/-- `tunnelIDMatch.MarshalText` (match.go lines 923–929); Go `%#x` is
`0x`-prefixed minimal-width hex. -/
def tunnelIDMatch.MarshalText (m : tunnelIDMatch) : Except OvsError String :=
  if m.mask = 0 then
    .ok ("tun_id=0x" ++ hexStr m.id)
  else
    .ok ("tun_id=0x" ++ hexStr m.id ++ "/0x" ++ hexStr m.mask)

/-! ## Hardware addresses (`net.ParseMAC` model, `dataLinkMatch`)

`net.ParseMAC` and `net.HardwareAddr.String` are Go standard-library
functions; they are embedded here following the standard library's
documented behaviour: colon- or hyphen-separated hex pairs and
dot-separated four-digit hex groups are accepted, the total octet count
must be 6, 8 or 20, and `String` renders colon-separated lower-case hex
pairs. -/

/-- ASCII hex digit test. -/
def isHexDigitChar (c : Char) : Bool :=
  (48 ≤ c.toNat ∧ c.toNat ≤ 57) ∨ (97 ≤ c.toNat ∧ c.toNat ≤ 102) ∨
    (65 ≤ c.toNat ∧ c.toNat ≤ 70)

/-- Value of an ASCII hex digit. -/
def hexCharVal (c : Char) : Nat :=
  if c.toNat ≤ 57 then c.toNat - 48
  else if 97 ≤ c.toNat then c.toNat - 87
  else c.toNat - 55

/-- Split a character list at the first occurrence of `sep`, as Go's
`strings.SplitN(s, sep, 2)` does: the part before, and (when `sep` occurs)
everything after it. -/
def splitFirst (sep : Char) : List Char → List Char × Option (List Char)
  | [] => ([], none)
  | c :: rest =>
    if c = sep then ([], some rest)
    else
      let p := splitFirst sep rest
      (c :: p.1, p.2)

/-- Hex pairs separated by `sep`: `d₁d₂(sep d₁d₂)*`, one octet per pair. -/
def parsePairsAux : List Char → Char → Option (List Nat)
  | a :: b :: rest, sep =>
    if isHexDigitChar a ∧ isHexDigitChar b then
      let octet := hexCharVal a * 16 + hexCharVal b
      match rest with
      | [] => some [octet]
      | c :: rest2 =>
        if c = sep then (parsePairsAux rest2 sep).map (fun l => octet :: l)
        else none
    else none
  | _, _ => none

/-- Dot-separated groups of four hex digits, two octets per group. -/
def parseQuadsAux : List Char → Option (List Nat)
  | a :: b :: c :: d :: rest =>
    if isHexDigitChar a ∧ isHexDigitChar b ∧ isHexDigitChar c ∧ isHexDigitChar d then
      let two := [hexCharVal a * 16 + hexCharVal b, hexCharVal c * 16 + hexCharVal d]
      match rest with
      | [] => some two
      | s :: rest2 =>
        if s = '.' then (parseQuadsAux rest2).map (fun l => two ++ l)
        else none
    else none
  | _ => none

/-- `net.ParseMAC`: accepts `xx:xx…`, `xx-xx…` (hex pairs) or `xxxx.xxxx…`
(four-digit groups) forms whose total octet count is 6, 8 or 20. -/
def parseMAC (cs : List Char) : Option (List Nat) :=
  if cs.length < 14 then none
  else if cs.get? 2 = some ':' ∨ cs.get? 2 = some '-' then
    if (cs.length + 1) % 3 ≠ 0 then none
    else
      let n := (cs.length + 1) / 3
      if n = 6 ∨ n = 8 ∨ n = 20 then
        parsePairsAux cs (if cs.get? 2 = some ':' then ':' else '-')
      else none
  else if cs.get? 4 = some '.' then
    if (cs.length + 1) % 5 ≠ 0 then none
    else
      let n := 2 * ((cs.length + 1) / 5)
      if n = 6 ∨ n = 8 ∨ n = 20 then parseQuadsAux cs else none
  else none

/-- `net.HardwareAddr.String`: colon-separated lower-case hex pairs. -/
def macString (l : List Nat) : String :=
  String.intercalate ":" (l.map fun b => pad0 2 (hexStr b))

/-- `ethernetAddrLen` (match.go line 96). -/
def ethernetAddrLen : Nat := 6

/-- `matchEthernetHardwareAddress` (match.go lines 984–991): the address,
already decoded to octets (`net.HardwareAddr`), must be exactly 6 octets. -/
def matchEthernetHardwareAddress (key : String) (addr : List Nat) :
    Except OvsError String :=
  if addr.length ≠ ethernetAddrLen then
    .error (.formatError ("hardware address must be " ++ toString ethernetAddrLen ++
      " octets, but got " ++ toString addr.length))
  else
    .ok (key ++ "=" ++ macString addr)

/-- A `dataLinkMatch`; Go fields `srcdst string`, `addr string` (the address
with an optional `/wildcard` suffix). -/
structure dataLinkMatch where
  srcdst : String
  addr : String
deriving DecidableEq, Repr

/-- `dataLinkMatch.MarshalText` (match.go lines 117–145): split before an
optional wildcard mask, parse and length-check the address (and the
wildcard, when present), and render the canonical colon-hex forms. -/
def dataLinkMatch.MarshalText (m : dataLinkMatch) : Except OvsError String :=
  let ss := splitFirst '/' m.addr.data
  match parseMAC ss.1 with
  | none => .error (.parseError ("address " ++ String.mk ss.1 ++ ": invalid MAC address"))
  | some hwAddr =>
    if hwAddr.length ≠ ethernetAddrLen then
      .error (.formatError ("hardware address must be " ++ toString ethernetAddrLen ++
        " octets, but got " ++ toString hwAddr.length))
    else
      match ss.2 with
      | none => .ok ("dl_" ++ m.srcdst ++ "=" ++ macString hwAddr)
      | some w =>
        match parseMAC w with
        | none => .error (.parseError ("address " ++ String.mk w ++ ": invalid MAC address"))
        | some wildcard =>
          if wildcard.length ≠ ethernetAddrLen then
            .error (.formatError ("wildcard mask must be " ++ toString ethernetAddrLen ++
              " octets, but got " ++ toString wildcard.length))
          else
            .ok ("dl_" ++ m.srcdst ++ "=" ++ macString hwAddr ++ "/" ++ macString wildcard)

/-! ## IPv4 / IPv6 parsing (`net.ParseIP`, `net.ParseCIDR`, `IP.To4` model)

Models of the Go standard-library address functions used by
`matchIPv4AddressOrCIDR` (match.go lines 934–954), following their
documented behaviour: `ParseIP` dispatches on the first `.` or `:` to the
IPv4 or IPv6 grammar; dotted-quad fields are 1–3 decimal digits without
leading zeros, at most 255; IPv6 groups are up to four hex digits with one
optional `::` and an optional trailing dotted quad; `To4` succeeds on
4-byte addresses and on IPv4-mapped 16-byte addresses
(`::ffff:a.b.c.d`); `IP.String` renders a `To4`-representable address in
dotted-quad form and other 16-byte addresses in RFC 5952 style. -/

/-- Split a character list at every occurrence of `sep`. -/
def splitAll (sep : Char) : List Char → List (List Char)
  | [] => [[]]
  | c :: rest =>
    let r := splitAll sep rest
    if c = sep then [] :: r
    else
      match r with
      | [] => [[c]]
      | g :: gs => (c :: g) :: gs

/-- Decimal value of a digit list. -/
def decVal (l : List Char) : Nat :=
  l.foldl (fun a c => a * 10 + (c.toNat - 48)) 0

/-- One dotted-quad field: 1–3 decimal digits, no leading zero, at most
255. -/
def parseDecField (l : List Char) : Option Nat :=
  if l = [] then none
  else if ¬ l.all Char.isDigit then none
  else if 1 < l.length ∧ l.head? = some '0' then none
  else if 3 < l.length then none
  else
    let n := decVal l
    if n ≤ 255 then some n else none

/-- IPv4 dotted-quad parser (`net.parseIPv4`): exactly four fields. -/
def parseV4 (cs : List Char) : Option (List Nat) :=
  match splitAll '.' cs with
  | [a, b, c, d] =>
    match parseDecField a, parseDecField b, parseDecField c, parseDecField d with
    | some va, some vb, some vc, some vd => some [va, vb, vc, vd]
    | _, _, _, _ => none
  | _ => none

/-- Leading hex digits of a character list, and the rest. -/
def takeHex : List Char → List Char × List Char
  | [] => ([], [])
  | c :: cs =>
    if isHexDigitChar c then
      let r := takeHex cs
      (c :: r.1, r.2)
    else ([], c :: cs)

/-- Value of a hex digit list (most significant first). -/
def hexValList (l : List Char) : Nat :=
  l.foldl (fun a c => a * 16 + hexCharVal c) 0

/-- Final assembly of an IPv6 parse: without `::` exactly 16 bytes are
required; with `::` fewer than 16 bytes are padded with zeros at the
ellipsis position. -/
def parseV6Assemble (acc : List Nat) (ell : Option Nat) : Option (List Nat) :=
  if acc.length = 16 then
    match ell with
    | none => some acc
    | some _ => none
  else
    match ell with
    | none => none
    | some j =>
      if acc.length < 16 then
        some (acc.take j ++ List.replicate (16 - acc.length) 0 ++ acc.drop j)
      else none

/-- IPv6 group loop (`net.parseIPv6`): repeatedly read a hex group of value
at most `0xffff`, handle a trailing dotted quad (only at byte offset 12
unless `::` occurred), and track the single permitted `::`. -/
def parseV6Loop : Nat → List Char → List Nat → Option Nat → Option (List Nat)
  | 0, _, _, _ => none
  | fuel + 1, cs, acc, ell =>
    if 16 ≤ acc.length then
      if cs = [] then parseV6Assemble acc ell else none
    else
      let p := takeHex cs
      if p.1 = [] then none
      else
        let n := hexValList p.1
        if 0xffff < n then none
        else
          match p.2 with
          | [] => parseV6Assemble (acc ++ [n / 256, n % 256]) ell
          | '.' :: _ =>
            if (ell = none → acc.length = 12) ∧ acc.length + 4 ≤ 16 then
              match parseV4 (p.1 ++ p.2) with
              | some quad => parseV6Assemble (acc ++ quad) ell
              | none => none
            else none
          | ':' :: ':' :: rest2 =>
            match ell with
            | some _ => none
            | none =>
              let acc2 := acc ++ [n / 256, n % 256]
              if rest2 = [] then parseV6Assemble acc2 (some acc2.length)
              else parseV6Loop fuel rest2 acc2 (some acc2.length)
          | ':' :: rest2 =>
            if rest2 = [] then none
            else parseV6Loop fuel rest2 (acc ++ [n / 256, n % 256]) ell
          | _ => none

/-- IPv6 parser: a leading `::` is handled before the group loop. -/
def parseV6 (cs : List Char) : Option (List Nat) :=
  match cs with
  | ':' :: ':' :: rest =>
    if rest = [] then some (List.replicate 16 0)
    else parseV6Loop (rest.length + 1) rest [] (some 0)
  | _ => parseV6Loop (cs.length + 1) cs [] none

/-- First address-family indicator character: `.` means IPv4, `:` IPv6. -/
def ipKind : List Char → Option Bool
  | [] => none
  | c :: rest =>
    if c = '.' then some true
    else if c = ':' then some false
    else ipKind rest

/-- `net.ParseIP`: a 4-byte list for dotted quads, a 16-byte list for IPv6
literals, `none` otherwise. -/
def parseIP (cs : List Char) : Option (List Nat) :=
  match ipKind cs with
  | some true => parseV4 cs
  | some false => parseV6 cs
  | none => none

/-- `net.IP.To4`: 4-byte addresses as-is; IPv4-mapped 16-byte addresses
(`0…0 ff ff a b c d`) reduced to their last four bytes. -/
def ipTo4 (ip : List Nat) : Option (List Nat) :=
  if ip.length = 4 then some ip
  else if ip.length = 16 ∧ ip.take 10 = List.replicate 10 0 ∧
      ip.get? 10 = some 255 ∧ ip.get? 11 = some 255 then
    some (ip.drop 12)
  else none

/-- 16-bit groups of a 16-byte address. -/
def bytePairs : List Nat → List Nat
  | a :: b :: rest => (a * 256 + b) :: bytePairs rest
  | _ => []

/-- Length of the zero prefix of a group list. -/
def zeroRunLen : List Nat → Nat
  | 0 :: rest => zeroRunLen rest + 1
  | _ => 0

/-- Leftmost longest zero run (start, length) over the groups. -/
def bestZeroRun : List Nat → Nat → Nat × Nat
  | [], i => (i, 0)
  | g :: rest, i =>
    let cur := zeroRunLen (g :: rest)
    let b := bestZeroRun rest (i + 1)
    if b.2 > cur then b else (i, cur)

/-- RFC 5952-style rendering of a 16-byte address: minimal-width hex
groups; the leftmost longest run of two or more zero groups becomes `::`. -/
def ipv6String (ip : List Nat) : String :=
  let gs := bytePairs ip
  let b := bestZeroRun gs 0
  if b.2 < 2 then String.intercalate ":" (gs.map hexStr)
  else
    String.intercalate ":" ((gs.take b.1).map hexStr) ++ "::" ++
      String.intercalate ":" ((gs.drop (b.1 + b.2)).map hexStr)

/-- `net.IP.String`: dotted quad whenever `To4` succeeds, RFC 5952 IPv6
form otherwise. -/
def ipString (ip : List Nat) : String :=
  match ipTo4 ip with
  | some quad => String.intercalate "." (quad.map toString)
  | none => ipv6String ip

/-- All characters are decimal digits and the list is nonempty. -/
def parseDecAll (l : List Char) : Option Nat :=
  if l = [] then none
  else if l.all Char.isDigit then some (decVal l) else none

/-- `net.ParseCIDR`, restricted to the address component the caller uses:
split at the first `/`, parse the address, and check the decimal prefix
length against the address family's bit width. -/
def parseCIDR (cs : List Char) : Option (List Nat) :=
  match splitFirst '/' cs with
  | (_, none) => none
  | (addr, some mask) =>
    match parseIP addr with
    | none => none
    | some ip =>
      match parseDecAll mask with
      | none => none
      | some n => if n ≤ 8 * ip.length then some ip else none

/-- `matchIPv4AddressOrCIDR` (match.go lines 934–954): a CIDR literal is
accepted unchanged when its address passes `To4`; otherwise the bare
literal must parse and pass `To4` and is re-serialized canonically; in all
other cases the `%q is not a valid IPv4 address or IPv4 CIDR block` error
is returned. -/
def matchIPv4AddressOrCIDR (key ip : String) : Except OvsError String :=
  let errInvalidIPv4 : OvsError :=
    .formatError ("\"" ++ ip ++ "\" is not a valid IPv4 address or IPv4 CIDR block")
  match parseCIDR ip.data with
  | some ipAddr =>
    if (ipTo4 ipAddr).isNone then .error errInvalidIPv4
    else .ok (key ++ "=" ++ ip)
  | none =>
    match parseIP ip.data with
    | some ipAddr =>
      if (ipTo4 ipAddr).isNone then .error errInvalidIPv4
      else .ok (key ++ "=" ++ ipString ipAddr)
    | none => .error errInvalidIPv4

/-! ## Ternary-match denotation of a masked transport port

A masked transport-port pair `(value, mask)` with the don't-care polarity
declared for range-decomposed fields (§3 of the spec) matches a 16-bit port
`p` iff `p` agrees with `value` on every bit the mask does not wildcard. -/

/-- The set of 16-bit port values matched by `(port, mask)`: mask bit 1 is
"don't care", so `p` matches iff `(p XOR port) AND (NOT mask) = 0` within
16 bits. -/
def portMatchSet (port mask : Nat) : Finset Nat :=
  (Finset.range (2 ^ 16)).filter fun p => (p ^^^ port) &&& ((2 ^ 16 - 1) ^^^ mask) = 0

/-- The integer interval a block denotes. -/
def blockSet (b : Block) : Finset Nat :=
  Finset.Icc b.value (b.value + 2 ^ b.maskBits - 1)

/-- Union of the intervals denoted by a block list. -/
def unionBlockSets (l : List Block) : Finset Nat :=
  l.foldr (fun b acc => blockSet b ∪ acc) ∅

example : decompose 1 6 = [⟨1, 0⟩, ⟨2, 1⟩, ⟨4, 1⟩, ⟨6, 0⟩] := by decide

example :
    transportPortRange.MaskedPorts ⟨"src", 1, 6⟩ =
      .ok [⟨"src", 1, 0⟩, ⟨"src", 2, 1⟩, ⟨"src", 4, 1⟩, ⟨"src", 6, 0⟩] := by
  decide

example : matchTransportPort "src" 2 1 = .ok "tp_src=0x0002/0x0001" := by decide

example : matchTransportPort "src" 1 0 = .ok "tp_src=1" := by decide

example : regMatch.MarshalText ⟨0, 5, 3⟩ = .ok "reg0=0x5/0x3" := by decide

example : regMatch.MarshalText ⟨1, 5, 2 ^ 32 - 1⟩ = .ok "reg1=0x5" := by decide

example : dataLinkVLANMatch.MarshalText ⟨0xffff⟩ = .ok "dl_vlan=0xffff" := by decide

example : dataLinkVLANMatch.MarshalText ⟨4096⟩ = .error errInvalidVLANVID := by decide

example : dataLinkTypeMatch.MarshalText ⟨0x806⟩ = .ok "dl_type=0x0806" := by decide

example : connectionTrackingMatch.MarshalText ⟨[]⟩ = .ok "ct_state=" := by decide

example :
    matchEthernetHardwareAddress "nd_sll" [0, 1, 2, 3, 4] =
      .error (.formatError "hardware address must be 6 octets, but got 5") := by decide

example :
    dataLinkMatch.MarshalText ⟨"src", "de:ad:be:ef:00:01"⟩ =
      .ok "dl_src=de:ad:be:ef:00:01" := by decide

example :
    dataLinkMatch.MarshalText ⟨"src", "00:11:22:33:44:55:66:77"⟩ =
      .error (.formatError "hardware address must be 6 octets, but got 8") := by decide

example :
    dataLinkMatch.MarshalText ⟨"dst", "de:ad:be:ef:00:01/ff:ff:ff:ff:00:00"⟩ =
      .ok "dl_dst=de:ad:be:ef:00:01/ff:ff:ff:ff:00:00" := by decide

example : parseIP "10.0.0.1".data = some [10, 0, 0, 1] := by decide

example : parseIP "::1".data = some [0,0,0,0,0,0,0,0,0,0,0,0,0,0,0,1] := by decide

example :
    parseIP "::ffff:10.0.0.1".data =
      some [0,0,0,0,0,0,0,0,0,0,255,255,10,0,0,1] := by decide

example :
    matchIPv4AddressOrCIDR "nw_src" "::1" =
      .error (.formatError "\"::1\" is not a valid IPv4 address or IPv4 CIDR block") := by
  decide

example : matchIPv4AddressOrCIDR "nw_src" "10.0.0.0/24" = .ok "nw_src=10.0.0.0/24" := by decide

example : matchIPv4AddressOrCIDR "nw_src" "10.0.0.1" = .ok "nw_src=10.0.0.1" := by decide

example : matchIPv4AddressOrCIDR "nw_src" "::ffff:10.0.0.1" = .ok "nw_src=10.0.0.1" := by decide

example : matchIPv4AddressOrCIDR "nw_src" "256.0.0.1" =
    .error (.formatError "\"256.0.0.1\" is not a valid IPv4 address or IPv4 CIDR block") := by
  decide

example : ipv6String [0x20, 0x01, 0, 0, 0, 0, 0, 0, 0, 0, 0, 0, 0, 0, 0, 1] = "2001::1" := by
  decide

lemma xor_and_high_eq_zero_iff {p v : Nat} (k : Nat) (hk : k ≤ 16)
    (hp : p < 2 ^ 16) (hv : v < 2 ^ 16) :
    (p ^^^ v) &&& ((2 ^ 16 - 1) ^^^ (2 ^ k - 1)) = 0 ↔ p / 2 ^ k = v / 2 ^ k := by
  constructor
  · intro h
    rw [← Nat.shiftRight_eq_div_pow, ← Nat.shiftRight_eq_div_pow]
    apply Nat.eq_of_testBit_eq
    intro j
    rw [Nat.testBit_shiftRight, Nat.testBit_shiftRight]
    by_cases hj : k + j < 16
    · have hb := congrArg (fun x => x.testBit (k + j)) h
      simp only [Nat.testBit_and, Nat.testBit_xor, Nat.zero_testBit,
        Nat.testBit_two_pow_sub_one] at hb
      have h1 : ¬ (k + j < k) := by omega
      simp only [decide_eq_true hj, decide_eq_false h1] at hb
      cases hpb : p.testBit (k + j) <;> cases hvb : v.testBit (k + j) <;>
        simp [hpb, hvb] at hb ⊢
    · have hple : p < 2 ^ (k + j) :=
        lt_of_lt_of_le hp (Nat.pow_le_pow_right (by norm_num) (by omega))
      have hvle : v < 2 ^ (k + j) :=
        lt_of_lt_of_le hv (Nat.pow_le_pow_right (by norm_num) (by omega))
      rw [Nat.testBit_lt_two_pow hple, Nat.testBit_lt_two_pow hvle]
  · intro h
    apply Nat.eq_of_testBit_eq
    intro i
    rw [Nat.zero_testBit]
    simp only [Nat.testBit_and, Nat.testBit_xor, Nat.testBit_two_pow_sub_one]
    by_cases hik : i < k
    · have h16 : i < 16 := by omega
      simp [decide_eq_true hik, decide_eq_true h16]
    · have heq : p.testBit i = v.testBit i := by
        have hp2 : p.testBit i = (p >>> k).testBit (i - k) := by
          rw [Nat.testBit_shiftRight]
          congr 1
          omega
        have hv2 : v.testBit i = (v >>> k).testBit (i - k) := by
          rw [Nat.testBit_shiftRight]
          congr 1
          omega
        rw [hp2, hv2, Nat.shiftRight_eq_div_pow, Nat.shiftRight_eq_div_pow, h]
      rw [heq]
      simp

lemma div_pow_eq_iff {v p k : Nat} (hv : v % 2 ^ k = 0) :
    p / 2 ^ k = v / 2 ^ k ↔ v ≤ p ∧ p ≤ v + 2 ^ k - 1 := by
  have hpos : 0 < 2 ^ k := Nat.pos_pow_of_pos k (by norm_num)
  have hvd : 2 ^ k * (v / 2 ^ k) = v := by
    have := Nat.div_add_mod v (2 ^ k)
    omega
  have hpd : 2 ^ k * (p / 2 ^ k) + p % 2 ^ k = p := Nat.div_add_mod p (2 ^ k)
  have hpm : p % 2 ^ k < 2 ^ k := Nat.mod_lt _ hpos
  constructor
  · intro h
    rw [← h] at hvd
    omega
  · rintro ⟨h1, h2⟩
    have hle : v / 2 ^ k ≤ p / 2 ^ k := Nat.div_le_div_right h1
    have hvd2 : (v / 2 ^ k + 1) * 2 ^ k = v + 2 ^ k := by
      rw [Nat.add_mul, Nat.one_mul, Nat.mul_comm, hvd]
    have hlt : p / 2 ^ k < v / 2 ^ k + 1 := by
      rw [Nat.div_lt_iff_lt_mul hpos]
      calc p ≤ v + 2 ^ k - 1 := h2
        _ < v + 2 ^ k := by omega
        _ = (v / 2 ^ k + 1) * 2 ^ k := hvd2.symm
    omega

/-- An aligned in-range block's ternary denotation is exactly its
interval. -/
lemma portMatchSet_eq_blockSet {v k : Nat} (halign : v % 2 ^ k = 0) (hk : k ≤ 16)
    (hfit : v + 2 ^ k - 1 ≤ 2 ^ 16 - 1) :
    portMatchSet v (2 ^ k - 1) = Finset.Icc v (v + 2 ^ k - 1) := by
  have hpos : 0 < 2 ^ k := Nat.pos_pow_of_pos k (by norm_num)
  have hv : v < 2 ^ 16 := by omega
  ext p
  simp only [portMatchSet, Finset.mem_filter, Finset.mem_range, Finset.mem_Icc]
  constructor
  · rintro ⟨hp, hcond⟩
    exact (div_pow_eq_iff halign).mp ((xor_and_high_eq_zero_iff k hk hp hv).mp hcond)
  · rintro ⟨h1, h2⟩
    have hp : p < 2 ^ 16 := by omega
    exact ⟨hp, (xor_and_high_eq_zero_iff k hk hp hv).mpr
      ((div_pow_eq_iff halign).mpr ⟨h1, h2⟩)⟩

/-! ## Properties of the greedy decomposition -/

lemma findK_le (w s e : Nat) : findK w s e ≤ w := by
  induction w with
  | zero => simp [findK]
  | succ k ih =>
    rw [findK]
    split
    · exact Nat.le_refl _
    · exact Nat.le_succ_of_le ih

lemma findK_align (w s e : Nat) : s % 2 ^ findK w s e = 0 := by
  induction w with
  | zero => simp [findK, Nat.mod_one]
  | succ k ih =>
    rw [findK]
    split
    · next h => exact h.1
    · exact ih

lemma findK_fit (w s e : Nat) (h : s ≤ e) : s + 2 ^ findK w s e - 1 ≤ e := by
  induction w with
  | zero => simpa [findK]
  | succ k ih =>
    rw [findK]
    split
    · next hc => exact hc.2
    · exact ih

lemma decomposeAux_mem (fuel : Nat) : ∀ s e : Nat, ∀ b ∈ decomposeAux fuel s e,
    s ≤ b.value ∧ b.value % 2 ^ b.maskBits = 0 ∧ b.value + 2 ^ b.maskBits - 1 ≤ e ∧
      b.maskBits ≤ 16 := by
  induction fuel with
  | zero => intro s e b hb; simp [decomposeAux] at hb
  | succ fuel ih =>
    intro s e b hb
    rw [decomposeAux] at hb
    by_cases hse : s ≤ e
    · simp only [if_pos hse, List.mem_cons] at hb
      rcases hb with hb | hb
      · subst hb
        exact ⟨Nat.le_refl _, findK_align 16 s e, findK_fit 16 s e hse, findK_le 16 s e⟩
      · have h2 := ih (s + 2 ^ findK 16 s e) e b hb
        have hk : 0 < 2 ^ findK 16 s e := Nat.pos_pow_of_pos _ (by norm_num)
        exact ⟨by omega, h2.2.1, h2.2.2.1, h2.2.2.2⟩
    · simp [if_neg hse] at hb

lemma decomposeAux_union (fuel : Nat) : ∀ s e : Nat, e + 1 - s ≤ fuel →
    unionBlockSets (decomposeAux fuel s e) = Finset.Icc s e := by
  induction fuel with
  | zero =>
    intro s e hf
    have : ¬ s ≤ e := by omega
    simp [decomposeAux, unionBlockSets, Finset.Icc_eq_empty, this]
  | succ fuel ih =>
    intro s e hf
    rw [decomposeAux]
    by_cases hse : s ≤ e
    · simp only [if_pos hse]
      have hk : 0 < 2 ^ findK 16 s e := Nat.pos_pow_of_pos _ (by norm_num)
      have hfit := findK_fit 16 s e hse
      have hrec := ih (s + 2 ^ findK 16 s e) e (by omega)
      simp only [unionBlockSets, List.foldr_cons] at hrec ⊢
      rw [hrec]
      ext x
      simp only [blockSet, Finset.mem_union, Finset.mem_Icc]
      omega
    · have : ¬ s ≤ e := hse
      simp [if_neg hse, unionBlockSets, Finset.Icc_eq_empty, this]

lemma decomposeAux_pairwise (fuel : Nat) : ∀ s e : Nat,
    List.Pairwise (fun a b => Disjoint (blockSet a) (blockSet b))
      (decomposeAux fuel s e) := by
  induction fuel with
  | zero => intro s e; simp [decomposeAux]
  | succ fuel ih =>
    intro s e
    rw [decomposeAux]
    by_cases hse : s ≤ e
    · simp only [if_pos hse]
      refine List.Pairwise.cons ?_ (ih (s + 2 ^ findK 16 s e) e)
      intro b hb
      have hm := decomposeAux_mem fuel (s + 2 ^ findK 16 s e) e b hb
      have hfit := findK_fit 16 s e hse
      rw [Finset.disjoint_left]
      intro x hx hxb
      simp only [blockSet, Finset.mem_Icc] at hx hxb
      have hk : 0 < 2 ^ findK 16 s e := Nat.pos_pow_of_pos _ (by norm_num)
      omega
    · simp [if_neg hse]

example : unionBlockSets (decompose 3 12) = Finset.Icc 3 12 :=
  decomposeAux_union (12 + 1 - 3) 3 12 (Nat.le_refl _)

/-! ## Digit-width facts for the fixed-width hex renderings -/

lemma hexRevAux_length_le : ∀ fuel d n : Nat, n < 16 ^ d → 0 < d → d ≤ fuel →
    (hexRevAux fuel n).length ≤ d := by
  intro fuel
  induction fuel with
  | zero => intro d n _ hd hdf; omega
  | succ fuel ih =>
    intro d n hn hd hdf
    rw [hexRevAux]
    by_cases h16 : n < 16
    · simpa [if_pos h16]
    · have hd2 : 2 ≤ d := by
        by_contra hc
        have : d = 1 := by omega
        subst this
        simp [pow_one] at hn
        omega
      simp only [if_neg h16, List.length_cons]
      have hdiv : n / 16 < 16 ^ (d - 1) := by
        have h1 : 16 ^ d = 16 ^ (d - 1) * 16 := by
          rw [← pow_succ]
          congr 1
          omega
        rw [Nat.div_lt_iff_lt_mul (by norm_num)]
        omega
      have := ih (d - 1) (n / 16) hdiv (by omega) (by omega)
      omega

lemma hexStr_length_le {n d : Nat} (h : n < 16 ^ d) (hd : 0 < d) (hd16 : d ≤ 16) :
    (hexStr n).length ≤ d := by
  have h1 : (hexStr n).length = (hexRevAux 16 n).reverse.length := rfl
  rw [h1, List.length_reverse]
  exact hexRevAux_length_le 16 d n h hd hd16

lemma pad0_length (w : Nat) (s : String) (h : s.length ≤ w) : (pad0 w s).length = w := by
  have h1 : (pad0 w s).length = (w - s.length) + s.length := by
    rw [pad0, String.length_append]
    have h2 : (String.mk (List.replicate (w - s.length) '0')).length =
        (List.replicate (w - s.length) '0').length := rfl
    rw [h2, List.length_replicate]
  omega

lemma hex04_length {n : Nat} (h : n < 2 ^ 16) : (hex04 n).length = 4 := by
  apply pad0_length
  exact hexStr_length_le (by norm_num at h ⊢; omega) (by norm_num) (by norm_num)

lemma hex08_length {n : Nat} (h : n < 2 ^ 32) : (hex08 n).length = 8 := by
  apply pad0_length
  exact hexStr_length_le (by norm_num at h ⊢; omega) (by norm_num) (by norm_num)

/-! ## Claim C1: the decomposed port matches partition the range -/

lemma unionPort_map (sd : String) (e : Nat) (he : e ≤ 2 ^ 16 - 1) :
    ∀ l : List Block,
    (∀ b ∈ l, b.value % 2 ^ b.maskBits = 0 ∧ b.value + 2 ^ b.maskBits - 1 ≤ e ∧
      b.maskBits ≤ 16) →
    ((l.map fun b => (⟨sd, b.value, 2 ^ b.maskBits - 1⟩ : transportPortMatch)).foldr
      (fun m acc => portMatchSet m.port m.mask ∪ acc) ∅) = unionBlockSets l := by
  intro l
  induction l with
  | nil => intro _; rfl
  | cons b t ih =>
    intro hmem
    have hb := hmem b (List.mem_cons_self b t)
    have ht : ∀ x ∈ t, x.value % 2 ^ x.maskBits = 0 ∧ x.value + 2 ^ x.maskBits - 1 ≤ e ∧
        x.maskBits ≤ 16 := fun x hx => hmem x (List.mem_cons_of_mem b hx)
    simp only [List.map_cons, List.foldr_cons]
    rw [ih ht]
    have hset : portMatchSet b.value (2 ^ b.maskBits - 1) = blockSet b :=
      portMatchSet_eq_blockSet hb.1 hb.2.2 (by omega)
    rw [hset]
    rfl

lemma pairwise_transport (sd : String) (e : Nat) (he : e ≤ 2 ^ 16 - 1) :
    ∀ l : List Block,
    (∀ b ∈ l, b.value % 2 ^ b.maskBits = 0 ∧ b.value + 2 ^ b.maskBits - 1 ≤ e ∧
      b.maskBits ≤ 16) →
    List.Pairwise (fun a b => Disjoint (blockSet a) (blockSet b)) l →
    List.Pairwise (fun a b => Disjoint (portMatchSet a.port a.mask)
      (portMatchSet b.port b.mask))
      (l.map fun b => (⟨sd, b.value, 2 ^ b.maskBits - 1⟩ : transportPortMatch)) := by
  intro l
  induction l with
  | nil => intro _ _; simp
  | cons b t ih =>
    intro hmem hpw
    have hb := hmem b (List.mem_cons_self b t)
    have ht : ∀ x ∈ t, x.value % 2 ^ x.maskBits = 0 ∧ x.value + 2 ^ x.maskBits - 1 ≤ e ∧
        x.maskBits ≤ 16 := fun x hx => hmem x (List.mem_cons_of_mem b hx)
    rcases hpw with _ | ⟨hhead, htail⟩
    simp only [List.map_cons]
    refine List.Pairwise.cons ?_ (ih ht htail)
    intro m hm
    rcases List.mem_map.mp hm with ⟨x, hx, hxm⟩
    subst hxm
    have hxp := ht x hx
    show Disjoint (portMatchSet b.value (2 ^ b.maskBits - 1))
      (portMatchSet x.value (2 ^ x.maskBits - 1))
    rw [portMatchSet_eq_blockSet hb.1 hb.2.2 (by omega),
      portMatchSet_eq_blockSet hxp.1 hxp.2.2 (by omega)]
    exact hhead x hx

/-- Claim C1: for `0 ≤ start ≤ end ≤ 2^16 − 1`, `MaskedPorts` on a transport
port range succeeds, and the emitted masked matches denote pairwise-disjoint
sets of 16-bit port values whose union is exactly `{start, …, end}`. -/
theorem maskedPorts_partition (sd : String) (s e : Nat)
    (h1 : s ≤ e) (h2 : e ≤ 2 ^ 16 - 1) :
    ∃ ms : List transportPortMatch,
      transportPortRange.MaskedPorts ⟨sd, s, e⟩ = .ok ms ∧
      List.Pairwise (fun a b => Disjoint (portMatchSet a.port a.mask)
        (portMatchSet b.port b.mask)) ms ∧
      ms.foldr (fun m acc => portMatchSet m.port m.mask ∪ acc) ∅ = Finset.Icc s e := by
  have hnot : ¬ (s > e) := by omega
  have hmem : ∀ b ∈ decompose s e, b.value % 2 ^ b.maskBits = 0 ∧
      b.value + 2 ^ b.maskBits - 1 ≤ e ∧ b.maskBits ≤ 16 := by
    intro b hb
    have := decomposeAux_mem (e + 1 - s) s e b hb
    exact ⟨this.2.1, this.2.2.1, this.2.2.2⟩
  refine ⟨(decompose s e).map fun b => ⟨sd, b.value, 2 ^ b.maskBits - 1⟩, ?_, ?_, ?_⟩
  · show transportPortRange.MaskedPorts ⟨sd, s, e⟩ = _
    rw [transportPortRange.MaskedPorts]
    rw [PortRange.BitwiseMatch]
    simp only [if_neg hnot, List.map_map]
    rfl
  · exact pairwise_transport sd e h2 (decompose s e) hmem
      (decomposeAux_pairwise (e + 1 - s) s e)
  · rw [unionPort_map sd e h2 (decompose s e) hmem]
    exact decomposeAux_union (e + 1 - s) s e (Nat.le_refl _)

/-- Witness for C1 at the concrete range `[1, 6]`. -/
theorem maskedPorts_partition_witness :
    (1 ≤ 6 ∧ 6 ≤ 2 ^ 16 - 1) ∧
    ∃ ms : List transportPortMatch,
      transportPortRange.MaskedPorts ⟨"src", 1, 6⟩ = .ok ms ∧
      List.Pairwise (fun a b => Disjoint (portMatchSet a.port a.mask)
        (portMatchSet b.port b.mask)) ms ∧
      ms.foldr (fun m acc => portMatchSet m.port m.mask ∪ acc) ∅ = Finset.Icc 1 6 :=
  ⟨⟨by norm_num, by norm_num⟩,
    maskedPorts_partition "src" 1 6 (by norm_num) (by norm_num)⟩

/-! ## Claims C2–C5 -/

/-- Claim C2: decomposing `[1, 6]` yields exactly the four blocks
`(1,0), (2,1), (4,1), (6,0)` in order, `MaskedPorts` wraps them in order as
source-port matches, and their encodings are `tp_src=1`,
`tp_src=0x0002/0x0001`, `tp_src=0x0004/0x0001`, `tp_src=6`. -/
theorem decompose_one_six :
    decompose 1 6 = [⟨1, 0⟩, ⟨2, 1⟩, ⟨4, 1⟩, ⟨6, 0⟩] ∧
    transportPortRange.MaskedPorts ⟨"src", 1, 6⟩ =
      .ok [⟨"src", 1, 0⟩, ⟨"src", 2, 1⟩, ⟨"src", 4, 1⟩, ⟨"src", 6, 0⟩] ∧
    ([⟨"src", 1, 0⟩, ⟨"src", 2, 1⟩, ⟨"src", 4, 1⟩, ⟨"src", 6, 0⟩] :
        List transportPortMatch).map
        (fun m => matchTransportPort m.srcdst m.port m.mask) =
      [.ok "tp_src=1", .ok "tp_src=0x0002/0x0001", .ok "tp_src=0x0004/0x0001",
        .ok "tp_src=6"] := by
  refine ⟨by decide, by decide, by decide⟩

/-- Claim C3: a reversed range (`start > end`) makes the decomposition fail
with a RangeError, which `MaskedPorts` propagates unchanged, producing no
matches. -/
theorem maskedPorts_rangeError (sd : String) (s e : Nat) (h : e < s) :
    transportPortRange.MaskedPorts ⟨sd, s, e⟩ =
      .error (.rangeError "invalid port range: start is greater than end") ∧
    PortRange.BitwiseMatch ⟨s, e⟩ =
      .error (.rangeError "invalid port range: start is greater than end") := by
  have hgt : (⟨s, e⟩ : PortRange).Start > (⟨s, e⟩ : PortRange).End := h
  constructor
  · rw [transportPortRange.MaskedPorts, PortRange.BitwiseMatch, if_pos hgt]
  · rw [PortRange.BitwiseMatch, if_pos hgt]

/-- Witness for C3 at the concrete reversed range `[5, 4]`. -/
theorem maskedPorts_rangeError_witness :
    transportPortRange.MaskedPorts ⟨"dst", 5, 4⟩ =
      .error (.rangeError "invalid port range: start is greater than end") :=
  (maskedPorts_rangeError "dst" 5 4 (by norm_num)).1

/-- Claim C4: `matchTransportPort` renders `tp_<srcdst>=<port in decimal>`
for the exact-match sentinel `mask = 0` and
`tp_<srcdst>=0x<port>/0x<mask>` with exactly four zero-padded hex digits
each otherwise, and never returns an error. -/
theorem matchTransportPort_spec (sd : String) (port mask : Nat)
    (hp : port < 2 ^ 16) (hm : mask < 2 ^ 16) :
    (mask = 0 →
      matchTransportPort sd port mask = .ok ("tp_" ++ sd ++ "=" ++ toString port)) ∧
    (mask ≠ 0 →
      matchTransportPort sd port mask =
        .ok ("tp_" ++ sd ++ "=0x" ++ hex04 port ++ "/0x" ++ hex04 mask) ∧
      (hex04 port).length = 4 ∧ (hex04 mask).length = 4) ∧
    ∃ out, matchTransportPort sd port mask = .ok out := by
  refine ⟨fun h => by rw [matchTransportPort, if_pos h],
    fun h => ⟨by rw [matchTransportPort, if_neg h], hex04_length hp, hex04_length hm⟩, ?_⟩
  by_cases h : mask = 0
  · exact ⟨_, by rw [matchTransportPort, if_pos h]⟩
  · exact ⟨_, by rw [matchTransportPort, if_neg h]⟩

/-- Witness for C4 at concrete ports. -/
theorem matchTransportPort_spec_witness :
    matchTransportPort "dst" 5 0 = .ok "tp_dst=5" ∧
    matchTransportPort "src" 2 1 = .ok "tp_src=0x0002/0x0001" ∧
    (hex04 2).length = 4 := by
  have h0 := (matchTransportPort_spec "dst" 5 0 (by norm_num) (by norm_num)).1 rfl
  have h1 := (matchTransportPort_spec "src" 2 1 (by norm_num) (by norm_num)).2.1
    (by norm_num)
  exact ⟨by rw [h0]; rfl, by rw [h1.1]; rfl, h1.2.1⟩

/-- Claim C5: a register match encodes to the empty token for `mask = 0`, to
the no-suffix exact form `reg<n>=<val>` for the all-ones mask (the value
printed as Go renders it: `0` bare, otherwise `0x`-hex), and to
`reg<n>=0x<val>/0x<mask>` for every other mask; it never returns an
error. -/
theorem regMatch_MarshalText_spec (n : Int) (val mask : Nat) :
    (mask = 0 → regMatch.MarshalText ⟨n, val, mask⟩ = .ok "") ∧
    (mask = 2 ^ 32 - 1 → val = 0 →
      regMatch.MarshalText ⟨n, val, mask⟩ = .ok ("reg" ++ toString n ++ "=0")) ∧
    (mask = 2 ^ 32 - 1 → val ≠ 0 →
      regMatch.MarshalText ⟨n, val, mask⟩ =
        .ok ("reg" ++ toString n ++ "=0x" ++ hexStr val)) ∧
    (mask ≠ 0 → mask ≠ 2 ^ 32 - 1 →
      regMatch.MarshalText ⟨n, val, mask⟩ =
        .ok ("reg" ++ toString n ++ "=0x" ++ hexStr val ++ "/0x" ++ hexStr mask)) ∧
    ∃ out, regMatch.MarshalText ⟨n, val, mask⟩ = .ok out := by
  refine ⟨fun h => by rw [regMatch.MarshalText]; simp [h], ?_, ?_, ?_, ?_⟩
  · intro h hv
    have h0 : mask ≠ 0 := by rw [h]; norm_num
    rw [regMatch.MarshalText, if_neg h0, if_pos h, if_pos hv]
  · intro h hv
    have h0 : mask ≠ 0 := by rw [h]; norm_num
    rw [regMatch.MarshalText, if_neg h0, if_pos h, if_neg hv]
  · intro h0 h1
    rw [regMatch.MarshalText, if_neg h0, if_neg h1]
  · rw [regMatch.MarshalText]
    split
    · exact ⟨_, rfl⟩
    · split
      · split
        · exact ⟨_, rfl⟩
        · exact ⟨_, rfl⟩
      · exact ⟨_, rfl⟩

/-- Witness for C5 at concrete register matches. -/
theorem regMatch_MarshalText_spec_witness :
    regMatch.MarshalText ⟨0, 7, 0⟩ = .ok "" ∧
    regMatch.MarshalText ⟨1, 5, 2 ^ 32 - 1⟩ = .ok "reg1=0x5" ∧
    regMatch.MarshalText ⟨1, 0, 2 ^ 32 - 1⟩ = .ok "reg1=0" ∧
    regMatch.MarshalText ⟨2, 5, 3⟩ = .ok "reg2=0x5/0x3" := by
  have h0 := (regMatch_MarshalText_spec 0 7 0).1 rfl
  have h1 := (regMatch_MarshalText_spec 1 5 (2 ^ 32 - 1)).2.2.1 rfl (by norm_num)
  have h2 := (regMatch_MarshalText_spec 1 0 (2 ^ 32 - 1)).2.1 rfl rfl
  have h3 := (regMatch_MarshalText_spec 2 5 3).2.2.2.1 (by norm_num) (by decide)
  refine ⟨h0, ?_, ?_, ?_⟩
  · rw [h1]; rfl
  · rw [h2]; rfl
  · rw [h3]; rfl

/-! ## Claim C6 -/

/-- Counterexample to claim C6: register value and mask are NOT rendered
with 8 zero-padded hex digits; `RegMatch(0, 5, 3)` encodes with
minimal-width hex (`reg0=0x5/0x3`), not `reg0=0x00000005/0x00000003`. -/
theorem hexWidth_reg_cex :
    regMatch.MarshalText ⟨0, 5, 3⟩ = .ok "reg0=0x5/0x3" ∧
    regMatch.MarshalText ⟨0, 5, 3⟩ ≠ .ok "reg0=0x00000005/0x00000003" := by
  refine ⟨by decide, by decide⟩

/-- Claim C6 (amended): ethertype, VLAN TCI and transport-port value/mask
render with exactly 4 zero-padded hex digits and the connection-tracking
mark with exactly 8; register value/mask render in `0x`-prefixed
minimal-width (unpadded) hexadecimal. -/
theorem hexWidth_spec (sd : String) (et tci tmask mark cmask port pmask : Nat)
    (n : Int) (val rmask : Nat)
    (het : et < 2 ^ 16) (htci : tci < 2 ^ 16) (htm : tmask < 2 ^ 16)
    (hmark : mark < 2 ^ 32) (hcm : cmask < 2 ^ 32)
    (hport : port < 2 ^ 16) (hpm : pmask < 2 ^ 16) :
    (dataLinkTypeMatch.MarshalText ⟨et⟩ = .ok ("dl_type=0x" ++ hex04 et) ∧
      (hex04 et).length = 4) ∧
    (tmask ≠ 0 →
      vlanTCIMatch.MarshalText ⟨tci, tmask⟩ =
        .ok ("vlan_tci=0x" ++ hex04 tci ++ "/0x" ++ hex04 tmask) ∧
      (hex04 tci).length = 4 ∧ (hex04 tmask).length = 4) ∧
    (cmask ≠ 0 →
      connectionTrackingMarkMatch.MarshalText ⟨mark, cmask⟩ =
        .ok ("ct_mark=0x" ++ hex08 mark ++ "/0x" ++ hex08 cmask) ∧
      (hex08 mark).length = 8 ∧ (hex08 cmask).length = 8) ∧
    (pmask ≠ 0 →
      matchTransportPort sd port pmask =
        .ok ("tp_" ++ sd ++ "=0x" ++ hex04 port ++ "/0x" ++ hex04 pmask) ∧
      (hex04 port).length = 4 ∧ (hex04 pmask).length = 4) ∧
    (rmask ≠ 0 → rmask ≠ 2 ^ 32 - 1 →
      regMatch.MarshalText ⟨n, val, rmask⟩ =
        .ok ("reg" ++ toString n ++ "=0x" ++ hexStr val ++ "/0x" ++ hexStr rmask)) := by
  refine ⟨⟨by rw [dataLinkTypeMatch.MarshalText], hex04_length het⟩, ?_, ?_, ?_, ?_⟩
  · intro h
    exact ⟨by rw [vlanTCIMatch.MarshalText, if_pos h], hex04_length htci,
      hex04_length htm⟩
  · intro h
    exact ⟨by rw [connectionTrackingMarkMatch.MarshalText, if_pos h],
      hex08_length hmark, hex08_length hcm⟩
  · intro h
    exact ⟨by rw [matchTransportPort, if_neg h], hex04_length hport,
      hex04_length hpm⟩
  · intro h0 h1
    rw [regMatch.MarshalText, if_neg h0, if_neg h1]

/-- Witness for the amended C6 at concrete field values. -/
theorem hexWidth_spec_witness :
    dataLinkTypeMatch.MarshalText ⟨0x806⟩ = .ok "dl_type=0x0806" ∧
    vlanTCIMatch.MarshalText ⟨0x10, 0xfff⟩ = .ok "vlan_tci=0x0010/0x0fff" ∧
    connectionTrackingMarkMatch.MarshalText ⟨1, 0xff⟩ =
      .ok "ct_mark=0x00000001/0x000000ff" ∧
    regMatch.MarshalText ⟨0, 5, 3⟩ = .ok "reg0=0x5/0x3" := by
  have h := hexWidth_spec "src" 0x806 0x10 0xfff 1 0xff 2 1 0 5 3
    (by norm_num) (by norm_num) (by norm_num) (by norm_num) (by norm_num)
    (by norm_num) (by norm_num)
  refine ⟨?_, ?_, ?_, ?_⟩
  · rw [h.1.1]; rfl
  · rw [(h.2.1 (by norm_num)).1]; rfl
  · rw [(h.2.2.1 (by norm_num)).1]; rfl
  · rw [h.2.2.2.2 (by norm_num) (by decide)]; rfl

/-! ## Claim C7 -/

/-- Claim C7: a hardware address (or wildcard mask) that decodes to a
number of octets other than 6 makes encoding fail with a FormatError
naming the expected length 6 and the actual length, and no text is
produced. -/
theorem hwaddr_length_spec :
    (∀ (key : String) (addr : List Nat), addr.length ≠ 6 →
      matchEthernetHardwareAddress key addr =
        .error (.formatError ("hardware address must be 6 octets, but got " ++
          toString addr.length))) ∧
    (∀ (sd a : String) (hw : List Nat),
      parseMAC (splitFirst '/' a.data).1 = some hw → hw.length ≠ 6 →
      dataLinkMatch.MarshalText ⟨sd, a⟩ =
        .error (.formatError ("hardware address must be 6 octets, but got " ++
          toString hw.length))) ∧
    (∀ (sd a : String) (hw : List Nat) (w : List Char) (wc : List Nat),
      parseMAC (splitFirst '/' a.data).1 = some hw → hw.length = 6 →
      (splitFirst '/' a.data).2 = some w → parseMAC w = some wc → wc.length ≠ 6 →
      dataLinkMatch.MarshalText ⟨sd, a⟩ =
        .error (.formatError ("wildcard mask must be 6 octets, but got " ++
          toString wc.length))) := by
  have hlen : ethernetAddrLen = 6 := rfl
  refine ⟨?_, ?_, ?_⟩
  · intro key addr h
    rw [matchEthernetHardwareAddress, hlen, if_pos h]
    rfl
  · intro sd a hw hparse h
    rw [dataLinkMatch.MarshalText]
    simp only [hparse, hlen, if_pos h]
    rfl
  · intro sd a hw w wc hparse h6 hsplit hwparse h
    rw [dataLinkMatch.MarshalText]
    have h6n : ¬ hw.length ≠ 6 := by omega
    simp only [hparse, hlen, if_neg h6n, hsplit, hwparse, if_pos h]
    rfl

/-- Witness for C7: a 5-octet address, an 8-octet (EUI-64) address string,
and an 8-octet wildcard mask. -/
theorem hwaddr_length_spec_witness :
    matchEthernetHardwareAddress "nd_sll" [0, 1, 2, 3, 4] =
      .error (.formatError "hardware address must be 6 octets, but got 5") ∧
    dataLinkMatch.MarshalText ⟨"src", "00:11:22:33:44:55:66:77"⟩ =
      .error (.formatError "hardware address must be 6 octets, but got 8") ∧
    dataLinkMatch.MarshalText ⟨"dst", "00:11:22:33:44:55/00:11:22:33:44:55:66:77"⟩ =
      .error (.formatError "wildcard mask must be 6 octets, but got 8") := by
  have t1 := hwaddr_length_spec.1 "nd_sll" [0, 1, 2, 3, 4] (by decide)
  have t2 := hwaddr_length_spec.2.1 "src" "00:11:22:33:44:55:66:77"
    [0x00, 0x11, 0x22, 0x33, 0x44, 0x55, 0x66, 0x77] (by decide) (by decide)
  have t3 := hwaddr_length_spec.2.2 "dst" "00:11:22:33:44:55/00:11:22:33:44:55:66:77"
    [0x00, 0x11, 0x22, 0x33, 0x44, 0x55] "00:11:22:33:44:55:66:77".data
    [0x00, 0x11, 0x22, 0x33, 0x44, 0x55, 0x66, 0x77] (by decide) (by decide)
    (by decide) (by decide) (by decide)
  refine ⟨by rw [t1]; rfl, by rw [t2]; rfl, by rw [t3]; rfl⟩

/-! ## Claim C9 -/

/-- Claim C9: the VLAN-id encoder renders the reserved "no tag" sentinel
`0xffff` as `dl_vlan=0xffff`, an id in the valid domain `0 … 4095` in
decimal, and rejects every other id with a RangeError and no text. -/
theorem dataLinkVLAN_spec (vid : Int) :
    (vid = VLANNone → dataLinkVLANMatch.MarshalText ⟨vid⟩ = .ok "dl_vlan=0xffff") ∧
    (0 ≤ vid → vid ≤ 4095 →
      dataLinkVLANMatch.MarshalText ⟨vid⟩ = .ok ("dl_vlan=" ++ toString vid)) ∧
    (¬ (0 ≤ vid ∧ vid ≤ 4095) → vid ≠ VLANNone →
      dataLinkVLANMatch.MarshalText ⟨vid⟩ = .error errInvalidVLANVID) := by
  refine ⟨?_, ?_, ?_⟩
  · intro h
    have hv : ¬ (¬ validVLANVID vid = true ∧ vid ≠ VLANNone) := by
      intro hc
      exact hc.2 h
    rw [dataLinkVLANMatch.MarshalText, if_neg hv, if_pos h]
  · intro h0 h1
    have hvalid : validVLANVID vid = true := by
      rw [validVLANVID]
      simp [h0, h1]
    have hv : ¬ (¬ validVLANVID vid = true ∧ vid ≠ VLANNone) := by
      intro hc
      exact hc.1 hvalid
    have hne : vid ≠ VLANNone := by
      rw [VLANNone]
      omega
    rw [dataLinkVLANMatch.MarshalText, if_neg hv, if_neg hne]
  · intro h0 h1
    have hinvalid : ¬ validVLANVID vid = true := by
      rw [validVLANVID]
      simpa using h0
    rw [dataLinkVLANMatch.MarshalText, if_pos ⟨hinvalid, h1⟩]

/-- Witness for C9: the sentinel, an in-domain id, and an out-of-domain
id. -/
theorem dataLinkVLAN_spec_witness :
    dataLinkVLANMatch.MarshalText ⟨0xffff⟩ = .ok "dl_vlan=0xffff" ∧
    dataLinkVLANMatch.MarshalText ⟨10⟩ = .ok "dl_vlan=10" ∧
    dataLinkVLANMatch.MarshalText ⟨4096⟩ = .error errInvalidVLANVID := by
  have t1 := (dataLinkVLAN_spec 0xffff).1 rfl
  have t2 := (dataLinkVLAN_spec 10).2.1 (by norm_num) (by norm_num)
  have t3 := (dataLinkVLAN_spec 4096).2.2 (by norm_num) (by decide)
  exact ⟨t1, by rw [t2]; rfl, t3⟩

/-! ## Claim C8 -/

/-- Counterexample to claim C8: `"::ffff:10.0.0.1"` is syntactically an
IPv6 literal (it parses to a 16-byte address) whose value is representable
in 4 bytes, yet the encoder does NOT return a FormatError: Go's `To4`
accepts IPv4-mapped addresses, so the match is accepted and re-serialized
as a dotted quad. -/
theorem matchIPv4_ipv6_literal_cex :
    parseIP "::ffff:10.0.0.1".data =
      some [0, 0, 0, 0, 0, 0, 0, 0, 0, 0, 255, 255, 10, 0, 0, 1] ∧
    matchIPv4AddressOrCIDR "nw_src" "::ffff:10.0.0.1" = .ok "nw_src=10.0.0.1" := by
  refine ⟨by decide, by decide⟩

/-- Claim C8 (amended): a bare literal that parses as a 16-byte IPv6
address is rejected with the FormatError unless it is IPv4-mapped
(`To4`-representable), in which case it is accepted and re-serialized in
dotted-quad form; a CIDR literal whose address passes `To4` is encoded
unchanged; a bare literal that parses and passes `To4` is re-serialized
canonically. -/
theorem matchIPv4AddressOrCIDR_spec (key s : String) :
    (∀ ip : List Nat, parseCIDR s.data = none → parseIP s.data = some ip →
      ip.length = 16 → ipTo4 ip = none →
      matchIPv4AddressOrCIDR key s =
        .error (.formatError
          ("\"" ++ s ++ "\" is not a valid IPv4 address or IPv4 CIDR block"))) ∧
    (∀ ip : List Nat, parseCIDR s.data = some ip → (ipTo4 ip).isSome = true →
      matchIPv4AddressOrCIDR key s = .ok (key ++ "=" ++ s)) ∧
    (∀ ip : List Nat, parseCIDR s.data = none → parseIP s.data = some ip →
      (ipTo4 ip).isSome = true →
      matchIPv4AddressOrCIDR key s = .ok (key ++ "=" ++ ipString ip)) := by
  refine ⟨?_, ?_, ?_⟩
  · intro ip hcidr hparse _ hto4
    rw [matchIPv4AddressOrCIDR]
    simp only [hcidr, hparse, hto4, Option.isNone_none, if_pos]
  · intro ip hcidr hto4
    rw [matchIPv4AddressOrCIDR]
    have : (ipTo4 ip).isNone = false := by
      cases h : ipTo4 ip
      · rw [h] at hto4; simp at hto4
      · rfl
    simp only [hcidr, this, Bool.false_eq_true, if_neg, if_false]
  · intro ip hcidr hparse hto4
    rw [matchIPv4AddressOrCIDR]
    have : (ipTo4 ip).isNone = false := by
      cases h : ipTo4 ip
      · rw [h] at hto4; simp at hto4
      · rfl
    simp only [hcidr, hparse, this, Bool.false_eq_true, if_neg, if_false]

/-- Witness for the amended C8 at the spec's concrete scenarios. -/
theorem matchIPv4AddressOrCIDR_spec_witness :
    matchIPv4AddressOrCIDR "nw_src" "::1" =
      .error (.formatError "\"::1\" is not a valid IPv4 address or IPv4 CIDR block") ∧
    matchIPv4AddressOrCIDR "nw_src" "10.0.0.0/24" = .ok "nw_src=10.0.0.0/24" ∧
    matchIPv4AddressOrCIDR "nw_src" "10.0.0.1" = .ok "nw_src=10.0.0.1" := by
  have t1 := (matchIPv4AddressOrCIDR_spec "nw_src" "::1").1
    [0, 0, 0, 0, 0, 0, 0, 0, 0, 0, 0, 0, 0, 0, 0, 1]
    (by decide) (by decide) (by decide) (by decide)
  have t2 := (matchIPv4AddressOrCIDR_spec "nw_src" "10.0.0.0/24").2.1
    [10, 0, 0, 0] (by decide) (by decide)
  have t3 := (matchIPv4AddressOrCIDR_spec "nw_src" "10.0.0.1").2.2
    [10, 0, 0, 1] (by decide) (by decide) (by decide)
  refine ⟨by rw [t1]; rfl, by rw [t2]; rfl, by rw [t3]; rfl⟩

/-! ## Claim C10 -/

/-- Claim C10: the flag-set encoders (connection-tracking state, TCP
flags) and the purely numeric encoders (ethertype, protocol number, ICMP
type, conjunction id, CT zone, CT mark, VLAN TCI, tunnel ID, register,
transport port) always return a nil error; in particular a
connection-tracking-state match with zero flag tokens encodes to
`ct_state=`. -/
theorem encoders_never_error :
    (∀ et : Nat, dataLinkTypeMatch.MarshalText ⟨et⟩ = .ok ("dl_type=0x" ++ hex04 et)) ∧
    (∀ num : Nat,
      networkProtocolMatch.MarshalText ⟨num⟩ = .ok ("nw_proto=" ++ toString num)) ∧
    (∀ typ : Nat, icmpTypeMatch.MarshalText ⟨typ⟩ = .ok ("icmp_type=" ++ toString typ)) ∧
    (∀ cid : Nat,
      conjunctionIDMatch.MarshalText ⟨cid⟩ = .ok ("conj_id=" ++ toString cid)) ∧
    (∀ zone : Nat,
      connectionTrackingZoneMatch.MarshalText ⟨zone⟩ =
        .ok ("ct_zone=" ++ toString zone)) ∧
    (∀ mark mask : Nat,
      ∃ out, connectionTrackingMarkMatch.MarshalText ⟨mark, mask⟩ = .ok out) ∧
    (∀ tci mask : Nat, ∃ out, vlanTCIMatch.MarshalText ⟨tci, mask⟩ = .ok out) ∧
    (∀ tid mask : Nat, ∃ out, tunnelIDMatch.MarshalText ⟨tid, mask⟩ = .ok out) ∧
    (∀ (n : Int) (val mask : Nat), ∃ out, regMatch.MarshalText ⟨n, val, mask⟩ = .ok out) ∧
    (∀ (sd : String) (port mask : Nat), ∃ out, matchTransportPort sd port mask = .ok out) ∧
    (∀ state : List String,
      connectionTrackingMatch.MarshalText ⟨state⟩ =
        .ok ("ct_state=" ++ String.join state)) ∧
    (∀ flags : List String,
      tcpFlagsMatch.MarshalText ⟨flags⟩ = .ok ("tcp_flags=" ++ String.join flags)) ∧
    connectionTrackingMatch.MarshalText ⟨[]⟩ = .ok "ct_state=" := by
  refine ⟨fun et => rfl, fun num => rfl, fun typ => rfl, fun cid => rfl, fun zone => rfl,
    ?_, ?_, ?_, ?_, ?_, fun state => rfl, fun flags => rfl, by decide⟩
  · intro mark mask
    rw [connectionTrackingMarkMatch.MarshalText]
    split
    · exact ⟨_, rfl⟩
    · exact ⟨_, rfl⟩
  · intro tci mask
    rw [vlanTCIMatch.MarshalText]
    split
    · exact ⟨_, rfl⟩
    · exact ⟨_, rfl⟩
  · intro tid mask
    rw [tunnelIDMatch.MarshalText]
    split
    · exact ⟨_, rfl⟩
    · exact ⟨_, rfl⟩
  · intro n val mask
    rw [regMatch.MarshalText]
    split
    · exact ⟨_, rfl⟩
    · split
      · split
        · exact ⟨_, rfl⟩
        · exact ⟨_, rfl⟩
      · exact ⟨_, rfl⟩
  · intro sd port mask
    rw [matchTransportPort]
    split
    · exact ⟨_, rfl⟩
    · exact ⟨_, rfl⟩
